import Mathlib

/-!
# LeafCalc: a verified shallow embedding

Shallow embedding of the measurement and preprocessing pipeline of
`LeafCalc.py` (class `EstimateLeafArea`), together with theorems about
the behaviour of its single-image operations.

Modelling conventions:
* a grayscale image is a list of rows of 8-bit intensities (`Nat`);
* a colour image is a list of rows of BGR pixel triples;
* Python `int` fields are `Int`; the resolution is `ℚ` (EXIF rationals
  and Python division are exact here, so `ℚ` models the arithmetic of
  `res / 2.54` and `areas / res` faithfully for the values that occur);
* `raise ValueError(...)` becomes `Except Err`, with one constructor per
  distinct validation failure of the source;
* external collaborators (image decoding, grayscale conversion,
  EXIF parsing, `skimage.measure.label` + `np.unique`, the filesystem)
  enter as explicit inputs: the connected-component labeller is a
  function parameter producing (label, pixel-count) records, and
  filesystem effects are returned as a list of `FsOp` values.
-/

set_option autoImplicit false

namespace LeafCalc

/-- A grayscale image: rows of intensity samples in `[0, 255]`. -/
abbrev GrayImage := List (List Nat)

/-- A colour pixel in OpenCV channel order (blue, green, red). -/
abbrev Pixel := Nat × Nat × Nat

/-- A colour image: rows of BGR pixels. -/
abbrev ColorImage := List (List Pixel)

/-- Number of columns of an image, read off the first row
(`scan.shape[1]` for a rectangular numpy array). -/
def numCols {α : Type} (scan : List (List α)) : Nat := (scan.headD []).length

/-- A rectangular image: every row has the width reported by `numCols`. -/
abbrev Rectangular {α : Type} (scan : List (List α)) : Prop :=
  ∀ row ∈ scan, row.length = numCols scan

/-- The mutable configuration carried by an `EstimateLeafArea` object
(`__init__`, lines 19–52 of `LeafCalc.py`). The `workers` field only
affects scheduling of directory batches and is kept for frame reasoning. -/
structure Config where
  red_scale : Int
  red_scale_pixels : Int
  mask_pixels : Int
  mask_scale : Int
  mask_offset_y : Int
  mask_offset_x : Int
  threshold : Int
  cut_off : Int
  output_dir : String
  crop : Int
  combine : Bool
  res : ℚ
  workers : Int
  deriving Repr, DecidableEq

/-- The error kinds raised by the single-image operations, one per
distinct `raise ValueError` site of the source, in the spec's taxonomy.
`InvalidResolution` is part of the taxonomy but (as proved below) is
never produced by the code. -/
inductive Err where
  | MissingMetadata
  | AnisotropicResolution
  | InvalidThreshold
  | InvalidCutoff
  | InvalidResolution
  | NegativeCrop
  | CropExceedsBounds
  | NegativeMaskParameter
  | MaskExceedsBounds
  | ScaleBarExceedsBounds
  | IdenticalSourceDestination
  | InvalidInputPath
  deriving Repr, DecidableEq

/-- EXIF resolution metadata of an image file, as exposed by the `exif`
package (`metadata.has_exif`, `metadata.x_resolution`, `metadata.y_resolution`). -/
structure ImageMeta where
  has_exif : Bool
  x_resolution : ℚ
  y_resolution : ℚ
  deriving Repr, DecidableEq

/-- A filesystem effect performed by an operation. -/
inductive FsOp where
  | mkdir (path : String)
  | writeGray (path : String) (img : GrayImage)
  | writeColor (path : String) (img : ColorImage)
  deriving Repr, DecidableEq

/-- `os.path.join` for the two-component joins used by the source. -/
def pathJoin (dir file : String) : String :=
  if dir = "" then file else dir ++ "/" ++ file

/-- Resolution resolution, `estimate` lines 66–75: a Python-falsy (zero)
`res` field triggers the EXIF read; any nonzero value — positive or
negative — is used unchanged. -/
def resolveRes (res : ℚ) (meta : ImageMeta) : Except Err ℚ :=
  if res ≠ 0 then .ok res
  else if !meta.has_exif then .error .MissingMetadata
  else if meta.x_resolution ≠ meta.y_resolution then .error .AnisotropicResolution
  else .ok meta.x_resolution

/-- One pixel of `cv2.threshold(scan, thresh, 255, cv2.THRESH_BINARY_INV)`:
the output is `0` where the source value exceeds the threshold and the
max value `255` elsewhere. -/
def threshBinaryInv (thresh : Int) (v : Nat) : Nat :=
  if (v : Int) > thresh then 0 else 255

/-- Segmentation, `estimate` lines 84–86: validate the threshold, then
apply the inverse binary threshold pixelwise. -/
def segment (threshold : Int) (img : GrayImage) : Except Err GrayImage :=
  if threshold < 0 ∨ threshold > 255 then .error .InvalidThreshold
  else .ok (img.map fun row => row.map (threshBinaryInv threshold))

/-- A region record: a component label together with its pixel count,
one entry of `np.unique(leaflets, return_counts=True)`. -/
abbrev Region := Nat × Nat

/-- Region filtering, `estimate` lines 95–106: reject a negative cut-off,
then keep exactly the records whose count reaches the cut-off and whose
label is not the background label `0`. -/
def filterRegions (cut_off : Int) (regions : List Region) : Except Err (List Region) :=
  if cut_off < 0 then .error .InvalidCutoff
  else .ok (regions.filter fun r => decide (cut_off ≤ (r.2 : Int)) && decide (r.1 ≠ 0))

/-- Pixel-count to physical-area conversion, `estimate` lines 109–111:
`res = dpi / 2.54; res = res * res; area = p / res`. -/
def pixelsToArea (dpi : ℚ) (p : Nat) : ℚ :=
  let r := dpi / (254 / 100)
  (p : ℚ) / (r * r)

/-- Result aggregation, `estimate` lines 118–121: one row holding the sum
of the areas when combining, otherwise one row per surviving region. -/
def aggregate (combine : Bool) (filename : String) (areas : List ℚ) :
    List (String × ℚ) :=
  if combine then [(filename, areas.sum)] else areas.map fun a => (filename, a)

/-- The outcome of a successful single-image `estimate` call: the state of
the configuration after the call, the filesystem writes performed, and
the measurement rows of the returned data frame. -/
structure EstimateOut where
  cfg : Config
  writes : List FsOp
  rows : List (String × ℚ)
  deriving Repr, DecidableEq

/-- Single-image branch of `EstimateLeafArea.estimate` (lines 64–121).
`img` is the path given by the caller, `baseName` its base name, `gray`
the decoded grayscale matrix, and `labelCounts` the external
connected-component labeller composed with the unique-count extraction
(`measure.label` + `np.unique`, lines 89–92), mapping the binary mask to
its region records. -/
def estimate (cfg : Config) (img baseName : String) (meta : ImageMeta)
    (gray : GrayImage) (labelCounts : GrayImage → List Region) :
    Except Err EstimateOut :=
  match resolveRes cfg.res meta with
  | .error e => .error e
  | .ok res =>
    match segment cfg.threshold gray with
    | .error e => .error e
    | .ok scan =>
      match filterRegions cfg.cut_off (labelCounts scan) with
      | .error e => .error e
      | .ok regions =>
        .ok ⟨{ cfg with res := res },
          (if cfg.output_dir = "" then []
            else [.writeGray (pathJoin cfg.output_dir baseName) scan]),
          aggregate cfg.combine img (regions.map fun r => pixelsToArea res r.2)⟩

/-- Clamp a (possibly negative) Python slice index into `[0, n]`, as numpy
basic slicing does: a negative index counts from the end, and indices
beyond the axis are clamped. -/
def pyIdx (n : Nat) (i : Int) : Nat :=
  if 0 ≤ i then min i.toNat n else n - min (-i).toNat n

/-- Python slice `l[a:b]` with numpy clamping semantics. -/
def pySlice {α : Type} (a b : Int) (l : List α) : List α :=
  (l.take (pyIdx l.length b)).drop (pyIdx l.length a)

/-- Cropping, `preprocess` lines 159–164: skipped for a falsy (zero) crop;
rejects a negative crop, then rejects a crop exceeding a full image
dimension, then slices `crop` pixels off each margin. -/
def cropStep (crop : Int) (scan : ColorImage) : Except Err ColorImage :=
  if crop = 0 then .ok scan
  else if crop < 0 then .error .NegativeCrop
  else if (scan.length : Int) < crop ∨ (numCols scan : Int) < crop then
    .error .CropExceedsBounds
  else
    .ok ((pySlice crop ((scan.length : Int) - crop) scan).map
      fun row => pySlice crop ((numCols scan : Int) - crop) row)

/-- Overwrite the cells of one row whose column index lies in
`[offx, offx + pixX)` with `color`; `x` is the index of the first cell. -/
def paintRow (color : Pixel) (offx pixX : Nat) : Nat → List Pixel → List Pixel
  | _, [] => []
  | x, p :: rest =>
    (if offx ≤ x ∧ x < offx + pixX then color else p)
      :: paintRow color offx pixX (x + 1) rest

/-- Overwrite the rectangular window of rows `[offy, offy + pixY)` and
columns `[offx, offx + pixX)` with `color`; `y` is the index of the
first row. Models the three per-channel numpy slice assignments. -/
def paintRect (color : Pixel) (offy offx pixY pixX : Nat) :
    Nat → ColorImage → ColorImage
  | _, [] => []
  | y, row :: rest =>
    (if offy ≤ y ∧ y < offy + pixY then paintRow color offx pixX 0 row else row)
      :: paintRect color offy offx pixY pixX (y + 1) rest

/-- Scale masking, `preprocess` lines 167–181: skipped for a falsy (zero)
`mask_scale`; rejects a negative offset or window size, rejects a window
reaching past either image dimension, then whitens the
`mask_pixels × mask_pixels` window at `(mask_offset_y, mask_offset_x)`. -/
def maskStep (cfg : Config) (scan : ColorImage) : Except Err ColorImage :=
  if cfg.mask_scale = 0 then .ok scan
  else if cfg.mask_offset_y < 0 ∨ cfg.mask_offset_x < 0 ∨ cfg.mask_pixels < 0 then
    .error .NegativeMaskParameter
  else if (scan.length : Int) < cfg.mask_offset_y + cfg.mask_pixels ∨
      (numCols scan : Int) < cfg.mask_offset_x + cfg.mask_pixels then
    .error .MaskExceedsBounds
  else
    .ok (paintRect (255, 255, 255) cfg.mask_offset_y.toNat cfg.mask_offset_x.toNat
      cfg.mask_pixels.toNat cfg.mask_pixels.toNat 0 scan)

/-- Red-scale overlay, `preprocess` lines 184–189: skipped for a falsy
(zero) `red_scale`; rejects a square exceeding either dimension, then
paints the `[0:p, 0:p]` corner pure red (BGR `(0,0,255)`), with numpy
slice clamping for the unvalidated negative-size case. -/
def redScaleStep (cfg : Config) (scan : ColorImage) : Except Err ColorImage :=
  if cfg.red_scale = 0 then .ok scan
  else if (scan.length : Int) < cfg.red_scale_pixels ∨
      (numCols scan : Int) < cfg.red_scale_pixels then
    .error .ScaleBarExceedsBounds
  else
    .ok (paintRect (0, 0, 255) 0 0 (pyIdx scan.length cfg.red_scale_pixels)
      (pyIdx (numCols scan) cfg.red_scale_pixels) 0 scan)

/-- Single-file branch of `EstimateLeafArea.preprocess` (lines 145–197).
`parentDir` is `os.path.split(img)[0]` and `baseStem` the extensionless
base name of the input. Returns the filesystem effects performed before
the outcome, and the outcome itself: the source-equals-destination check
(lines 150–153) runs before the image is read or any transformation is
applied, so on that failure no write has happened. An empty (falsy)
`output_dir` first creates a `preprocessed` directory next to the source
(lines 146–148) without updating the field used by the later checks. -/
def preprocessFile (cfg : Config) (parentDir baseStem : String)
    (scan : ColorImage) : List FsOp × Except Err Unit :=
  let pre : List FsOp :=
    if cfg.output_dir = "" then [.mkdir (parentDir ++ "/preprocessed")] else []
  if parentDir = cfg.output_dir then (pre, .error .IdenticalSourceDestination)
  else
    match (cropStep cfg.crop scan).bind (maskStep cfg) |>.bind (redScaleStep cfg) with
    | .error e => (pre, .error e)
    | .ok out =>
      (pre ++ [.writeColor (pathJoin cfg.output_dir (baseStem ++ ".jpg")) out],
        .ok ())

/-- The pixel of a colour image at row `y`, column `x`, if present. -/
def getPixel (scan : ColorImage) (y x : Nat) : Option Pixel :=
  scan[y]?.bind fun row => row[x]?

/-! ## Theorems about segmentation (C1) -/

/-- C1 counterexample: the claim says a pixel is foreground exactly when
its intensity is strictly below the threshold, but at threshold 120 a
pixel of intensity exactly 120 is classified foreground (value 255 in
the inverse-binary mask) even though 120 < 120 is false. -/
theorem segment_boundary_pixel_foreground :
    segment 120 [[120]] = .ok [[255]] ∧ ¬ (120 < 120) :=
  ⟨rfl, by decide⟩

/-- C1 (amended): for every threshold T in [0,255], segmentation succeeds
and classifies a pixel as foreground (mask value 255) exactly when its
intensity is at or below T, and as background (mask value 0) exactly
when its intensity is strictly above T; consequently segmenting an
all-white image for T < 255 yields a mask with no foreground. -/
theorem segment_foreground_iff_at_or_below (T : Int) (hT0 : 0 ≤ T) (hT1 : T ≤ 255)
    (img : GrayImage) :
    segment T img = .ok (img.map fun row => row.map (threshBinaryInv T)) ∧
    (∀ v : Nat, threshBinaryInv T v = 255 ↔ (v : Int) ≤ T) ∧
    (∀ v : Nat, threshBinaryInv T v = 0 ↔ (v : Int) > T) ∧
    (T < 255 → (∀ row ∈ img, ∀ v ∈ row, v = 255) →
      ∀ row ∈ img.map (fun row => row.map (threshBinaryInv T)), ∀ v ∈ row, v = 0) := by
  refine ⟨?_, ?_, ?_, ?_⟩
  · rw [segment, if_neg]; omega
  · intro v; rw [threshBinaryInv]; split <;> omega
  · intro v; rw [threshBinaryInv]; split <;> omega
  · intro h255 hwhite row hrow v hv
    rcases List.mem_map.mp hrow with ⟨row₀, hrow₀, rfl⟩
    rcases List.mem_map.mp hv with ⟨u, hu, rfl⟩
    have : u = 255 := hwhite row₀ hrow₀ u hu
    subst this
    rw [threshBinaryInv, if_pos]; omega

/-- Witness for the amended C1 at threshold 120 and a 1×1 image. -/
theorem segment_foreground_iff_at_or_below_witness :
    ((120 : Nat) : Int) ≤ 120 ∧ threshBinaryInv 120 120 = 255 :=
  ⟨by decide,
    ((segment_foreground_iff_at_or_below 120 (by decide) (by decide) [[255]]).2.1 120).mpr
      (by decide)⟩

/-! ## Theorems about region filtering (C2) -/

/-- C2: for every cut-off C and region-record list, a negative C fails
with the invalid-cut-off error, and for C ≥ 0 filtering succeeds keeping
a record (with its pixel count unchanged) exactly when its label is not
background 0 and its count is at least C. -/
theorem filterRegions_spec (C : Int) (rs : List Region) :
    (C < 0 → filterRegions C rs = .error .InvalidCutoff) ∧
    (0 ≤ C → ∃ out, filterRegions C rs = .ok out ∧
      ∀ l c : Nat, (l, c) ∈ out ↔ ((l, c) ∈ rs ∧ l ≠ 0 ∧ C ≤ (c : Int))) := by
  constructor
  · intro h; rw [filterRegions, if_pos h]
  · intro h
    refine ⟨_, by rw [filterRegions, if_neg (not_lt.mpr h)], ?_⟩
    intro l c
    rw [List.mem_filter]
    simp only [Bool.and_eq_true, decide_eq_true_eq]
    tauto

/-- Witness for C2 at cut-off 10000: the background region (label 0) and
an undersized region are dropped; the 20000-pixel region survives. -/
theorem filterRegions_spec_witness :
    (0 : Int) ≤ 10000 ∧ ∃ out,
      filterRegions 10000 [(0, 50000), (1, 20000), (2, 3)] = .ok out ∧
      ∀ l c : Nat, (l, c) ∈ out ↔
        ((l, c) ∈ [((0 : Nat), (50000 : Nat)), (1, 20000), (2, 3)] ∧
          l ≠ 0 ∧ (10000 : Int) ≤ (c : Int)) :=
  ⟨by decide, (filterRegions_spec 10000 [(0, 50000), (1, 20000), (2, 3)]).2 (by decide)⟩

/-! ## Theorems about area conversion (C3) -/

/-- C3: for every pixel count p and resolution dpi > 0, the converted
area equals p / ((dpi / 2.54)^2); in particular 20000 pixels at 300 dpi
give exactly 16129/11250 cm², which is within 0.001 of 1.434. -/
theorem pixelsToArea_spec (dpi : ℚ) (p : Nat) (h : 0 < dpi) :
    pixelsToArea dpi p = (p : ℚ) / ((dpi / (254 / 100)) ^ 2) ∧
    pixelsToArea 300 20000 = 16129 / 11250 ∧
    |pixelsToArea 300 20000 - 1434 / 1000| < 1 / 1000 := by
  have hval : pixelsToArea 300 20000 = 16129 / 11250 := by
    norm_num [pixelsToArea]
  refine ⟨?_, hval, ?_⟩
  · rw [pixelsToArea, pow_two]
  · rw [hval, abs_sub_lt_iff]
    constructor <;> norm_num

/-- Witness for C3 at 300 dpi and 20000 pixels. -/
theorem pixelsToArea_spec_witness :
    (0 : ℚ) < 300 ∧ pixelsToArea 300 20000 = (20000 : ℚ) / ((300 / (254 / 100)) ^ 2) :=
  ⟨by norm_num, (pixelsToArea_spec 300 20000 (by norm_num)).1⟩

/-! ## Inversion and error-shape lemmas for `estimate` -/

/-- A successful `estimate` call decomposes into successful resolution
lookup, segmentation and filtering, and fully determines the output. -/
theorem estimate_eq_ok {cfg : Config} {img bn : String} {meta : ImageMeta}
    {gray : GrayImage} {lc : GrayImage → List Region} {out : EstimateOut}
    (h : estimate cfg img bn meta gray lc = .ok out) :
    ∃ res scan regions,
      resolveRes cfg.res meta = .ok res ∧
      segment cfg.threshold gray = .ok scan ∧
      filterRegions cfg.cut_off (lc scan) = .ok regions ∧
      out = ⟨{ cfg with res := res },
        (if cfg.output_dir = "" then []
          else [.writeGray (pathJoin cfg.output_dir bn) scan]),
        aggregate cfg.combine img (regions.map fun r => pixelsToArea res r.2)⟩ := by
  unfold estimate at h
  split at h
  · exact absurd h (by simp)
  · rename_i res hres
    split at h
    · exact absurd h (by simp)
    · rename_i scan hscan
      split at h
      · exact absurd h (by simp)
      · rename_i regions hreg
        injection h with h
        exact ⟨res, scan, regions, hres, hscan, hreg, h.symm⟩

/-- The resolution resolver only fails for missing or anisotropic
metadata. -/
theorem resolveRes_error_cases {res : ℚ} {meta : ImageMeta} {e : Err}
    (h : resolveRes res meta = .error e) :
    e = .MissingMetadata ∨ e = .AnisotropicResolution := by
  unfold resolveRes at h
  split at h
  · exact absurd h (by simp)
  · split at h
    · injection h with h; exact Or.inl h.symm
    · split at h
      · injection h with h; exact Or.inr h.symm
      · exact absurd h (by simp)

/-- Segmentation only fails with the invalid-threshold error. -/
theorem segment_error_cases {T : Int} {img : GrayImage} {e : Err}
    (h : segment T img = .error e) : e = .InvalidThreshold := by
  unfold segment at h
  split at h
  · injection h with h; exact h.symm
  · exact absurd h (by simp)

/-- Region filtering only fails with the invalid-cut-off error. -/
theorem filterRegions_error_cases {C : Int} {rs : List Region} {e : Err}
    (h : filterRegions C rs = .error e) : e = .InvalidCutoff := by
  unfold filterRegions at h
  split at h
  · injection h with h; exact h.symm
  · exact absurd h (by simp)

/-- Projecting the area column out of per-region rows recovers the area
list. -/
theorem map_snd_map_pair (s : String) (l : List ℚ) :
    ((l.map fun a => (s, a)).map Prod.snd) = l := by
  induction l with
  | nil => rfl
  | cons a t ih => simp [ih]

/-! ## Theorems about aggregation (C4) -/

/-- C4: for the same single image file (same metadata, pixels and
labeller), the one row produced with combine = true carries exactly the
sum of the areas of the rows produced with combine = false, and that sum
is 0 when no region survives filtering. The equality is exact in ℚ, so
it holds within any floating-point tolerance. -/
theorem estimate_combine_sum (cfg : Config) (img bn : String) (meta : ImageMeta)
    (gray : GrayImage) (lc : GrayImage → List Region) (outT outF : EstimateOut)
    (hT : estimate { cfg with combine := true } img bn meta gray lc = .ok outT)
    (hF : estimate { cfg with combine := false } img bn meta gray lc = .ok outF) :
    outT.rows = [(img, (outF.rows.map Prod.snd).sum)] ∧
    (outF.rows = [] → outT.rows = [(img, 0)]) := by
  obtain ⟨res, scan, regions, hres, hscan, hreg, hout⟩ := estimate_eq_ok hT
  obtain ⟨res', scan', regions', hres', hscan', hreg', hout'⟩ := estimate_eq_ok hF
  have e1 : res = res' := Except.ok.inj (hres.symm.trans hres')
  have e2 : scan = scan' := Except.ok.inj (hscan.symm.trans hscan')
  rw [← e2] at hreg'
  have e3 : regions = regions' := Except.ok.inj (hreg.symm.trans hreg')
  subst e1 e2 e3
  rw [hout, hout']
  constructor
  · exact congrArg (fun l : List ℚ => [(img, l.sum)])
      (map_snd_map_pair img (regions.map fun r => pixelsToArea res r.2)).symm
  · intro hnil
    simp only [aggregate] at hnil
    simp only [Bool.false_eq_true, if_false, List.map_eq_nil_iff] at hnil
    simp [aggregate, hnil]

/-- Witness for C4: a concrete run with one surviving 20000-pixel region
at 300 dpi, in both aggregation modes. -/
theorem estimate_combine_sum_witness :
    ([("f", (16129 : ℚ) / 11250)] : List (String × ℚ)) =
      [("f", (([("f", (16129 : ℚ) / 11250)] : List (String × ℚ)).map Prod.snd).sum)] ∧
    (([("f", (16129 : ℚ) / 11250)] : List (String × ℚ)) = [] →
      ([("f", (16129 : ℚ) / 11250)] : List (String × ℚ)) = [("f", 0)]) := by
  have h := estimate_combine_sum
    ⟨0, 0, 0, 0, 0, 0, 120, 0, "out", 0, true, 300, 1⟩ "f" "f" ⟨false, 0, 0⟩
    [[255]] (fun _ => [(0, 4), (1, 20000)])
    ⟨⟨0, 0, 0, 0, 0, 0, 120, 0, "out", 0, true, 300, 1⟩,
      [.writeGray "out/f" [[0]]], [("f", (16129 : ℚ) / 11250)]⟩
    ⟨⟨0, 0, 0, 0, 0, 0, 120, 0, "out", 0, false, 300, 1⟩,
      [.writeGray "out/f" [[0]]], [("f", (16129 : ℚ) / 11250)]⟩
    (by simp only [estimate]
        norm_num [resolveRes, segment, threshBinaryInv, filterRegions, aggregate,
          pixelsToArea, pathJoin]
        decide)
    (by simp only [estimate]
        norm_num [resolveRes, segment, threshBinaryInv, filterRegions, aggregate,
          pixelsToArea, pathJoin]
        decide)
  exact h

/-! ## Theorems about resolution handling (C5, C9) -/

/-- C5 counterexample: with the explicit negative override res = -300,
a single-image estimate does not raise: it returns a measurement row
whose area is the same positive value the override 300 would give
(the negative resolution is squared away). -/
theorem negative_resolution_accepted :
    estimate ⟨0, 0, 0, 0, 0, 0, 120, 0, "out", 0, true, -300, 1⟩ "f" "f"
        ⟨false, 0, 0⟩ [[255]] (fun _ => [(0, 4), (1, 20000)]) =
      .ok ⟨⟨0, 0, 0, 0, 0, 0, 120, 0, "out", 0, true, -300, 1⟩,
        [.writeGray "out/f" [[0]]], [("f", (16129 : ℚ) / 11250)]⟩ ∧
    (-300 : ℚ) ≤ 0 := by
  refine ⟨?_, by norm_num⟩
  simp only [estimate]
  norm_num [resolveRes, segment, threshBinaryInv, filterRegions, aggregate,
    pixelsToArea, pathJoin]
  decide

/-- C5 (amended): the code performs no resolution validation at all: a
single-image estimate never fails with the invalid-resolution error (its
only failure modes are missing/anisotropic metadata, an invalid
threshold, and a negative cut-off), and the area conversion is
insensitive to the sign of the resolution, so a negative override
yields the same rows as its absolute value rather than an error. -/
theorem estimate_no_invalid_resolution (cfg : Config) (img bn : String)
    (meta : ImageMeta) (gray : GrayImage) (lc : GrayImage → List Region) :
    estimate cfg img bn meta gray lc ≠ .error .InvalidResolution ∧
    (∀ dpi : ℚ, ∀ p : Nat, pixelsToArea (-dpi) p = pixelsToArea dpi p) := by
  constructor
  · intro hc
    unfold estimate at hc
    split at hc
    · rename_i e h
      injection hc with hc
      rcases resolveRes_error_cases h with h2 | h2 <;> simp [h2] at hc
    · split at hc
      · rename_i e h
        injection hc with hc
        have := segment_error_cases h
        simp [this] at hc
      · split at hc
        · rename_i e h
          injection hc with hc
          have := filterRegions_error_cases h
          simp [this] at hc
        · exact absurd hc (by simp)
  · intro dpi p
    rw [pixelsToArea, pixelsToArea, neg_div, neg_mul_neg]

/-- Witness for the amended C5 at a concrete configuration. -/
theorem estimate_no_invalid_resolution_witness :
    estimate ⟨0, 0, 0, 0, 0, 0, 120, 0, "out", 0, true, -300, 1⟩ "f" "f"
        ⟨false, 0, 0⟩ [[255]] (fun _ => [(0, 4), (1, 20000)]) ≠
      .error .InvalidResolution ∧
    pixelsToArea (-(300 : ℚ)) 20000 = pixelsToArea 300 20000 :=
  ⟨(estimate_no_invalid_resolution ⟨0, 0, 0, 0, 0, 0, 120, 0, "out", 0, true, -300, 1⟩
      "f" "f" ⟨false, 0, 0⟩ [[255]] (fun _ => [(0, 4), (1, 20000)])).1,
    (estimate_no_invalid_resolution ⟨0, 0, 0, 0, 0, 0, 120, 0, "out", 0, true, -300, 1⟩
      "f" "f" ⟨false, 0, 0⟩ [[255]] (fun _ => [(0, 4), (1, 20000)])).2 300 20000⟩

/-- C9 counterexample: a single-image estimate with the resolution field
at its falsy default 0 writes the EXIF resolution back into the
configuration: after the call the field holds 300, not 0, so the
configuration is not immutable while a run is in progress. -/
theorem estimate_mutates_res :
    estimate ⟨0, 0, 0, 0, 0, 0, 120, 0, "out", 0, true, 0, 1⟩ "f" "f"
        ⟨true, 300, 300⟩ [[255]] (fun _ => [(0, 1)]) =
      .ok ⟨⟨0, 0, 0, 0, 0, 0, 120, 0, "out", 0, true, 300, 1⟩,
        [.writeGray "out/f" [[0]]], [("f", 0)]⟩ ∧
    (0 : ℚ) ≠ 300 :=
  ⟨by rfl, by norm_num⟩

/-- C9 (amended): a successful single-image estimate leaves every
configuration field unchanged except the resolution, which afterwards
holds the resolved dots-per-inch value: in particular the configuration
is unchanged whenever a nonzero resolution override was configured, and
with a zero override the field afterwards holds the metadata
resolution. -/
theorem estimate_config_frame (cfg : Config) (img bn : String) (meta : ImageMeta)
    (gray : GrayImage) (lc : GrayImage → List Region) (out : EstimateOut)
    (h : estimate cfg img bn meta gray lc = .ok out) :
    (∃ res, resolveRes cfg.res meta = .ok res ∧ out.cfg = { cfg with res := res }) ∧
    out.cfg.threshold = cfg.threshold ∧ out.cfg.cut_off = cfg.cut_off ∧
    out.cfg.combine = cfg.combine ∧ out.cfg.output_dir = cfg.output_dir ∧
    out.cfg.crop = cfg.crop ∧ out.cfg.workers = cfg.workers ∧
    (cfg.res ≠ 0 → out.cfg = cfg) ∧
    (cfg.res = 0 → out.cfg.res = meta.x_resolution) := by
  obtain ⟨res, scan, regions, hres, hscan, hreg, hout⟩ := estimate_eq_ok h
  subst hout
  refine ⟨⟨res, hres, rfl⟩, rfl, rfl, rfl, rfl, rfl, rfl, ?_, ?_⟩
  · intro h0
    have : res = cfg.res := by
      unfold resolveRes at hres
      rw [if_pos h0] at hres
      injection hres with hres
      exact hres.symm
    subst this
    rfl
  · intro h0
    unfold resolveRes at hres
    rw [if_neg (by simpa using h0)] at hres
    split at hres
    · exact absurd hres (by simp)
    · split at hres
      · exact absurd hres (by simp)
      · injection hres with hres
        exact hres.symm

/-! ## Slice and paint helper lemmas -/

/-- A clamped slice index never exceeds the axis length. -/
theorem pyIdx_le (n : Nat) (i : Int) : pyIdx n i ≤ n := by
  rw [pyIdx]; split <;> omega

/-- For an in-range nonnegative index, clamping is the identity. -/
theorem pyIdx_of_nonneg {n : Nat} {i : Int} (h0 : 0 ≤ i) (hn : i ≤ (n : Int)) :
    pyIdx n i = i.toNat := by
  rw [pyIdx, if_pos h0]; omega

/-- Length of a Python slice in terms of its clamped endpoints. -/
theorem pySlice_length {α : Type} (a b : Int) (l : List α) :
    (pySlice a b l).length = pyIdx l.length b - pyIdx l.length a := by
  rw [pySlice, List.length_drop, List.length_take]
  have := pyIdx_le l.length b
  omega

/-- Elements of a Python slice come from the sliced list. -/
theorem mem_of_mem_pySlice {α : Type} {x : α} {a b : Int} {l : List α}
    (h : x ∈ pySlice a b l) : x ∈ l :=
  List.mem_of_mem_take (List.mem_of_mem_drop h)

/-- Cropping only fails with the negative-crop or out-of-bounds errors. -/
theorem cropStep_error_cases {crop : Int} {scan : ColorImage} {e : Err}
    (h : cropStep crop scan = .error e) :
    e = .NegativeCrop ∨ e = .CropExceedsBounds := by
  unfold cropStep at h
  split at h
  · exact absurd h (by simp)
  · split at h
    · injection h with h; exact Or.inl h.symm
    · split at h
      · injection h with h; exact Or.inr h.symm
      · exact absurd h (by simp)

/-- The red-scale overlay only fails with the scale-bar bounds error. -/
theorem redScaleStep_error_cases {cfg : Config} {scan : ColorImage} {e : Err}
    (h : redScaleStep cfg scan = .error e) : e = .ScaleBarExceedsBounds := by
  unfold redScaleStep at h
  split at h
  · exact absurd h (by simp)
  · split at h
    · injection h with h; exact h.symm
    · exact absurd h (by simp)

/-- Cellwise description of `paintRow`, with `i` the index of the first
cell. -/
theorem paintRow_getElem (color : Pixel) (offx pixX : Nat) (l : List Pixel)
    (i j : Nat) :
    (paintRow color offx pixX i l)[j]? =
      l[j]?.map fun p => if offx ≤ i + j ∧ i + j < offx + pixX then color else p := by
  induction l generalizing i j with
  | nil => simp [paintRow]
  | cons p rest ih =>
    cases j with
    | zero => simp [paintRow]
    | succ j =>
      simp only [paintRow, List.getElem?_cons_succ]
      rw [ih (i + 1) j]
      have e : i + 1 + j = i + (j + 1) := by omega
      rw [e]

/-- Rowwise description of `paintRect`, with `i` the index of the first
row. -/
theorem paintRect_getElem (color : Pixel) (offy offx pixY pixX : Nat)
    (scan : ColorImage) (i j : Nat) :
    (paintRect color offy offx pixY pixX i scan)[j]? =
      scan[j]?.map fun row =>
        if offy ≤ i + j ∧ i + j < offy + pixY then paintRow color offx pixX 0 row
        else row := by
  induction scan generalizing i j with
  | nil => simp [paintRect]
  | cons row rest ih =>
    cases j with
    | zero => simp [paintRect]
    | succ j =>
      simp only [paintRect, List.getElem?_cons_succ]
      rw [ih (i + 1) j]
      have e : i + 1 + j = i + (j + 1) := by omega
      rw [e]

/-- Pixelwise description of `paintRect` started at the top row: a pixel
is repainted exactly when it lies in the window. -/
theorem getPixel_paintRect (color : Pixel) (offy offx pixY pixX : Nat)
    (scan : ColorImage) (y x : Nat) :
    getPixel (paintRect color offy offx pixY pixX 0 scan) y x =
      (getPixel scan y x).map fun p =>
        if offy ≤ y ∧ y < offy + pixY ∧ offx ≤ x ∧ x < offx + pixX then color
        else p := by
  rw [getPixel, getPixel, paintRect_getElem]
  cases hrow : scan[y]? with
  | none => simp
  | some row =>
    simp only [Option.map_some', Option.some_bind, Nat.zero_add]
    by_cases hy : offy ≤ y ∧ y < offy + pixY
    · rw [if_pos hy, paintRow_getElem]
      cases hx : row[x]? with
      | none => simp
      | some p =>
        simp only [Option.map_some', Nat.zero_add]
        by_cases hxc : offx ≤ x ∧ x < offx + pixX
        · rw [if_pos hxc, if_pos ⟨hy.1, hy.2, hxc.1, hxc.2⟩]
        · rw [if_neg hxc, if_neg (by tauto)]
    · rw [if_neg hy]
      cases hx : row[x]? with
      | none => simp
      | some p =>
        simp only [Option.map_some']
        rw [if_neg (by tauto)]

/-! ## Theorems about cropping (C6) -/

/-- C6 counterexample: on a 4×4 image, cropping by 3 exceeds half of
each dimension (2·3 > 4), yet the code does not fail with the
out-of-bounds error — its check only rejects a crop exceeding a full
dimension — and instead returns a clamped-empty image. -/
theorem crop_beyond_half_accepted :
    cropStep 3 (List.replicate 4 (List.replicate 4 ((255, 255, 255) : Pixel))) =
      .ok [] ∧
    2 * 3 > 4 :=
  ⟨rfl, by decide⟩

/-- C6 (amended): a negative crop fails with the negative-crop error;
the out-of-bounds error occurs exactly for a positive crop exceeding a
full image dimension (not half of one); and for 0 ≤ k within both full
dimensions the result has `H - 2k` rows of `W - 2k` pixels, truncated
at zero — which specializes to exactly `(H-2k) × (W-2k)` whenever
k ≤ dim/2 on each axis, as the claim states. -/
theorem cropStep_spec (k : Int) (scan : ColorImage) (hrect : Rectangular scan) :
    (k < 0 → cropStep k scan = .error .NegativeCrop) ∧
    (0 < k → ((scan.length : Int) < k ∨ (numCols scan : Int) < k) →
      cropStep k scan = .error .CropExceedsBounds) ∧
    (0 ≤ k → k ≤ (scan.length : Int) → k ≤ (numCols scan : Int) →
      ∃ out, cropStep k scan = .ok out ∧
        out.length = scan.length - 2 * k.toNat ∧
        ∀ row ∈ out, row.length = numCols scan - 2 * k.toNat) := by
  refine ⟨?_, ?_, ?_⟩
  · intro h
    rw [cropStep, if_neg (by omega), if_pos h]
  · intro h hb
    rw [cropStep, if_neg (by omega), if_neg (by omega), if_pos hb]
  · intro h0 hH hW
    by_cases hk0 : k = 0
    · subst hk0
      refine ⟨scan, by rw [cropStep, if_pos rfl], by simp, ?_⟩
      intro row hr
      simpa using hrect row hr
    · rw [cropStep, if_neg hk0, if_neg (by omega), if_neg (by omega)]
      refine ⟨_, rfl, ?_, ?_⟩
      · rw [List.length_map, pySlice_length,
          pyIdx_of_nonneg (by omega) (by omega),
          pyIdx_of_nonneg h0 hH]
        omega
      · intro row hr
        rcases List.mem_map.mp hr with ⟨row₀, hr₀, rfl⟩
        have hw : row₀.length = numCols scan := hrect row₀ (mem_of_mem_pySlice hr₀)
        rw [pySlice_length, hw,
          pyIdx_of_nonneg (by omega) (by omega),
          pyIdx_of_nonneg h0 hW]
        omega

/-- Witness for the amended C6: cropping a 4×4 image by 1 yields a 2×2
image. -/
theorem cropStep_spec_witness :
    Rectangular (List.replicate 4 (List.replicate 4 ((255, 255, 255) : Pixel))) ∧
    (0 : Int) ≤ 1 ∧
    ∃ out, cropStep 1 (List.replicate 4 (List.replicate 4 ((255, 255, 255) : Pixel))) =
        .ok out ∧
      out.length =
        (List.replicate 4 (List.replicate 4 ((255, 255, 255) : Pixel))).length -
          2 * (1 : Int).toNat ∧
      ∀ row ∈ out, row.length =
        numCols (List.replicate 4 (List.replicate 4 ((255, 255, 255) : Pixel))) -
          2 * (1 : Int).toNat :=
  ⟨by decide, by decide,
    (cropStep_spec 1 (List.replicate 4 (List.replicate 4 ((255, 255, 255) : Pixel)))
      (by decide)).2.2 (by decide) (by decide) (by decide)⟩

/-! ## Theorems about scale-mask validation (C7) -/

/-- C7: whenever the scale-masking step runs (nonzero mask_scale, cf.
the gating theorem below), a negative offset or window size fails with
the negative-parameter error; with nonnegative parameters a window
extending past either image dimension fails with the bounds error; in
particular offset-y 990 with a 50-pixel window on a 1000-row image
fails with the bounds error. -/
theorem maskStep_validation (cfg : Config) (scan : ColorImage)
    (hs : cfg.mask_scale ≠ 0) :
    ((cfg.mask_offset_y < 0 ∨ cfg.mask_offset_x < 0 ∨ cfg.mask_pixels < 0) →
      maskStep cfg scan = .error .NegativeMaskParameter) ∧
    (0 ≤ cfg.mask_offset_y → 0 ≤ cfg.mask_offset_x → 0 ≤ cfg.mask_pixels →
      ((scan.length : Int) < cfg.mask_offset_y + cfg.mask_pixels ∨
        (numCols scan : Int) < cfg.mask_offset_x + cfg.mask_pixels) →
      maskStep cfg scan = .error .MaskExceedsBounds) ∧
    (scan.length = 1000 → cfg.mask_offset_y = 990 → cfg.mask_pixels = 50 →
      0 ≤ cfg.mask_offset_x →
      maskStep cfg scan = .error .MaskExceedsBounds) := by
  refine ⟨?_, ?_, ?_⟩
  · intro hneg
    rw [maskStep, if_neg hs, if_pos hneg]
  · intro h1 h2 h3 hb
    rw [maskStep, if_neg hs, if_neg (by omega), if_pos hb]
  · intro hlen hy hp hx
    rw [maskStep, if_neg hs, if_neg (by omega), if_pos (by omega)]

/-- Witness for C7: the spec scenario, on a 1000×1 image. -/
theorem maskStep_validation_witness :
    (1 : Int) ≠ 0 ∧
    maskStep ⟨0, 0, 50, 1, 990, 0, 120, 10000, "out", 0, true, 0, 1⟩
        (List.replicate 1000 [((255 : Nat), (255 : Nat), (255 : Nat))]) =
      .error .MaskExceedsBounds :=
  ⟨by decide,
    (maskStep_validation ⟨0, 0, 50, 1, 990, 0, 120, 10000, "out", 0, true, 0, 1⟩
        (List.replicate 1000 [((255 : Nat), (255 : Nat), (255 : Nat))])
        (by decide)).2.2 (by rw [List.length_replicate]) rfl rfl (by decide)⟩

/-! ## Theorems about the source/destination check (C8) -/

/-- C8: when the parent directory of the input file equals the (nonempty)
configured output directory, preprocess fails with the
identical-source-destination error and performs no filesystem effect:
the outcome holds for every image content, because the check runs before
the image is read or transformed. -/
theorem preprocess_identical_source_destination (cfg : Config)
    (parentDir baseStem : String) (scan : ColorImage)
    (hne : cfg.output_dir ≠ "") (heq : parentDir = cfg.output_dir) :
    preprocessFile cfg parentDir baseStem scan =
      ([], .error .IdenticalSourceDestination) := by
  simp only [preprocessFile]
  rw [if_pos heq, if_neg hne]

/-- Witness for C8 at a concrete configuration and path. -/
theorem preprocess_identical_source_destination_witness :
    ("out" : String) ≠ "" ∧
    preprocessFile ⟨0, 0, 0, 0, 0, 0, 120, 10000, "out", 0, true, 0, 1⟩ "out" "img"
        [[(0, 0, 0)]] =
      ([], .error .IdenticalSourceDestination) :=
  ⟨by decide,
    preprocess_identical_source_destination
      ⟨0, 0, 0, 0, 0, 0, 120, 10000, "out", 0, true, 0, 1⟩ "out" "img"
      [[(0, 0, 0)]] (by decide) rfl⟩

/-! ## Theorems about scale-mask gating (C10) -/

/-- C10: with mask_scale = 0 the masking step is skipped entirely — the
image passes through unchanged and preprocess can raise neither masking
error, whatever the offsets and window size; with a nonzero mask_scale
the behaviour does not depend on the value of mask_scale, and the
repainted window's side length is mask_pixels: a pixel is whitened
exactly when it lies in the mask_pixels × mask_pixels window at
(mask_offset_y, mask_offset_x). -/
theorem maskStep_gated_by_mask_scale (cfg : Config) (scan : ColorImage) :
    (cfg.mask_scale = 0 → maskStep cfg scan = .ok scan) ∧
    (∀ s₁ s₂ : Int, s₁ ≠ 0 → s₂ ≠ 0 →
      maskStep { cfg with mask_scale := s₁ } scan =
        maskStep { cfg with mask_scale := s₂ } scan) ∧
    (cfg.mask_scale ≠ 0 → 0 ≤ cfg.mask_offset_y → 0 ≤ cfg.mask_offset_x →
      0 ≤ cfg.mask_pixels →
      cfg.mask_offset_y + cfg.mask_pixels ≤ (scan.length : Int) →
      cfg.mask_offset_x + cfg.mask_pixels ≤ (numCols scan : Int) →
      ∃ out, maskStep cfg scan = .ok out ∧
        ∀ y x, getPixel out y x =
          (getPixel scan y x).map fun p =>
            if cfg.mask_offset_y.toNat ≤ y ∧
                y < cfg.mask_offset_y.toNat + cfg.mask_pixels.toNat ∧
                cfg.mask_offset_x.toNat ≤ x ∧
                x < cfg.mask_offset_x.toNat + cfg.mask_pixels.toNat
            then (255, 255, 255) else p) ∧
    (cfg.mask_scale = 0 → ∀ pd st,
      (preprocessFile cfg pd st scan).2 ≠ .error .NegativeMaskParameter ∧
      (preprocessFile cfg pd st scan).2 ≠ .error .MaskExceedsBounds) := by
  have hskip : cfg.mask_scale = 0 → maskStep cfg scan = .ok scan := by
    intro h0
    rw [maskStep, if_pos h0]
  refine ⟨hskip, ?_, ?_, ?_⟩
  · intro s₁ s₂ hs₁ hs₂
    rw [maskStep, maskStep, if_neg hs₁, if_neg hs₂]
  · intro hs h1 h2 h3 hb1 hb2
    rw [maskStep, if_neg hs, if_neg (by omega), if_neg (by omega)]
    exact ⟨_, rfl, fun y x => getPixel_paintRect _ _ _ _ _ _ y x⟩
  · intro h0 pd st
    simp only [preprocessFile]
    by_cases hid : pd = cfg.output_dir
    · rw [if_pos hid]
      exact ⟨by simp, by simp⟩
    · rw [if_neg hid]
      cases hcrop : cropStep cfg.crop scan with
      | error e =>
        rcases cropStep_error_cases hcrop with he | he <;> subst he <;>
          exact ⟨by simp [Except.bind], by simp [Except.bind]⟩
      | ok s1 =>
        have hm : ∀ s : ColorImage, maskStep cfg s = .ok s := by
          intro s
          rw [maskStep, if_pos h0]
        cases hred : redScaleStep cfg s1 with
        | error e =>
          have he := redScaleStep_error_cases hred
          subst he
          simp only [Except.bind, hm s1, hred]
          exact ⟨by simp, by simp⟩
        | ok out =>
          simp only [Except.bind, hm s1, hred]
          exact ⟨by simp, by simp⟩

/-- Witness for C10: a configuration with mask_scale 0 and negative
mask parameters passes the image through and raises no masking error. -/
theorem maskStep_gated_by_mask_scale_witness :
    maskStep ⟨0, 0, -3, 0, -7, -2, 120, 10000, "out", 0, true, 0, 1⟩ [[(9, 9, 9)]] =
      .ok [[(9, 9, 9)]] ∧
    (preprocessFile ⟨0, 0, -3, 0, -7, -2, 120, 10000, "out", 0, true, 0, 1⟩
        "p" "s" [[(9, 9, 9)]]).2 ≠ .error .NegativeMaskParameter :=
  ⟨(maskStep_gated_by_mask_scale
      ⟨0, 0, -3, 0, -7, -2, 120, 10000, "out", 0, true, 0, 1⟩ [[(9, 9, 9)]]).1 rfl,
    ((maskStep_gated_by_mask_scale
      ⟨0, 0, -3, 0, -7, -2, 120, 10000, "out", 0, true, 0, 1⟩ [[(9, 9, 9)]]).2.2.2 rfl
      "p" "s").1⟩

/-- Witness for the amended C9: with a nonzero override 300 the
configuration is returned unchanged. -/
theorem estimate_config_frame_witness :
    (300 : ℚ) ≠ 0 ∧
    (⟨⟨0, 0, 0, 0, 0, 0, 120, 0, "out", 0, true, 300, 1⟩,
        [.writeGray "out/f" [[0]]], [("f", 0)]⟩ : EstimateOut).cfg =
      ⟨0, 0, 0, 0, 0, 0, 120, 0, "out", 0, true, 300, 1⟩ :=
  ⟨by norm_num,
    (estimate_config_frame ⟨0, 0, 0, 0, 0, 0, 120, 0, "out", 0, true, 300, 1⟩ "f" "f"
      ⟨false, 0, 0⟩ [[255]] (fun _ => [(0, 1)])
      ⟨⟨0, 0, 0, 0, 0, 0, 120, 0, "out", 0, true, 300, 1⟩,
        [.writeGray "out/f" [[0]]], [("f", 0)]⟩ (by rfl)).2.2.2.2.2.2.2.1
      (by norm_num)⟩

end LeafCalc
